import Mathlib

/-
  Shallow embedding of plugins/meta/libkv/libkv.go: a CNI meta-plugin that
  fetches a JSON array of network configurations from a key/value store,
  persists the raw bytes to a per-container scratch file, and delegates each
  entry to a child plugin selected by its "type" field.
-/

namespace LibKv

/-- JSON values: the model of the trees produced by encoding/json into
Go interface values. Numbers are modelled as integers (no claim depends on
the numeric representation). -/
inductive Json : Type
  | null : Json
  | bool : Bool → Json
  | num : Int → Json
  | str : String → Json
  | arr : List Json → Json
  | obj : List (String × Json) → Json

/-- Byte payloads, identified with their JSON parse when they are well-formed
JSON; malformed payloads are distinguished by a tag. -/
inductive Bytes : Type
  | json : Json → Bytes
  | malformed : Nat → Bytes

/-- Go map lookup on a decoded JSON object. Objects decoded by encoding/json
into Go maps have unique keys, so association lists here carry no duplicate
keys and first-match lookup is the map lookup. -/
def lookupField : List (String × Json) → String → Option Json
  | [], _ => none
  | (k, v) :: rest, name => if k = name then some v else lookupField rest name

/-- Decoding one array element into a Go value of type map[string]interface.
A JSON object yields its fields; JSON null yields the nil map (which Go
accepts); any other value is an unmarshal error. -/
def asObj : Json → Option (List (String × Json))
  | .obj fields => some fields
  | .null => some []
  | _ => none

/-- The call json.Unmarshal(value, netconfs) at libkv.go lines 80-83 and
149-152, decoding into a slice of map[string]interface: it succeeds exactly
when the bytes are well-formed JSON whose value is an array of objects
(JSON null also succeeds, leaving the nil slice). -/
def unmarshalNetConfs : Bytes → Option (List (List (String × Json)))
  | .json (.arr xs) => xs.mapM asObj
  | .json .null => some []
  | _ => none

/-- The call json.Marshal(conf) on a conf that was itself produced by
json.Unmarshal: it cannot fail, so it is modelled as total. The byte-level
key order of the serialization is not significant in this model; the payload
is treated opaquely by the delegation protocol. -/
def marshalConf (conf : List (String × Json)) : Bytes := .json (.obj conf)

/-- The struct LibKvConf of libkv.go lines 49-54. -/
structure LibKvConf where
  storeBackend : String
  uri : String
  basePath : String
  storeConfig : List (String × String)

/-- Decoding a JSON field into a Go string struct field: an absent field or a
JSON null leaves the zero value, a string is taken verbatim, and any other
value is an unmarshal type error. -/
def decodeStringField (fields : List (String × Json)) (name : String) :
    Option String :=
  match lookupField fields name with
  | none => some ""
  | some .null => some ""
  | some (.str s) => some s
  | some _ => none

/-- Decoding a JSON value into a Go map of string to string: null or absent
yields the nil map, an object whose values are all strings yields the map,
and anything else is an unmarshal type error. -/
def decodeStringMap : Json → Option (List (String × String))
  | .null => some []
  | .obj fields =>
      fields.mapM fun kv =>
        match kv.2 with
        | .str s => some (kv.1, s)
        | _ => none
  | _ => none

/-- The call json.Unmarshal(bytes, config) for config a LibKvConf: the
top-level value must be an object (or null, which leaves the zero struct),
and each known field must have the right type; unknown fields are ignored. -/
def decodeLibKvConf : Json → Option LibKvConf
  | .null => some ⟨"", "", "", []⟩
  | .obj fields => do
      let sb ← decodeStringField fields "storeBackend"
      let uri ← decodeStringField fields "uri"
      let bp ← decodeStringField fields "basePath"
      let sc ←
        match lookupField fields "storeConfig" with
        | none => some []
        | some v => decodeStringMap v
      some ⟨sb, uri, bp, sc⟩
  | _ => none

/-- The error values returned by cmdAdd and cmdDel (each carries a formatted
message in the source; only the identity of the message matters here). -/
inductive Error : Type
  | configError : Error
  | storeAccessError : String → Error
  | unmarshalError : Error
  | scratchNotFound : Error
  | parseNetconfError : Error
  | delegationError : String → Error

/-- The call strings.HasSuffix(s, suffix) at libkv.go line 114. -/
def strHasSuffix (s suffix : String) : Bool :=
  suffix.data.reverse.isPrefixOf s.data.reverse

/-- The function loadPluginConfig of libkv.go lines 109-119: unmarshal the
stdin bytes into a LibKvConf, then append a trailing "/" to BasePath when it
lacks one. No field validation occurs (the source carries a TODO for it). -/
def loadPluginConfig (b : Bytes) : Except Error LibKvConf :=
  match b with
  | .malformed _ => .error .configError
  | .json v =>
    match decodeLibKvConf v with
    | none => .error .configError
    | some config =>
      .ok { config with
              basePath :=
                if strHasSuffix config.basePath "/" then config.basePath
                else config.basePath ++ "/" }

/-- The store.Config value built at libkv.go lines 67-69. -/
structure StoreConfig where
  connectionTimeoutSeconds : Nat

/-- The store.Config passed to libkv.NewStore at libkv.go lines 63-70: a
hardcoded 10-second connection timeout. The loaded StoreConfig options are
not passed (the source carries the comment TODO pass in the storeConfig). -/
def newStoreConfig (_config : LibKvConf) : StoreConfig := ⟨10⟩

/-- The backend tags registered by the init function of libkv.go lines
136-141: consul.Register, etcd.Register and zookeeper.Register register the
tags "consul", "etcd" and "zk". libkv.NewStore fails on any other tag, which
cmdAdd turns into log.Fatal. -/
def registeredBackends : List String := ["consul", "etcd", "zk"]

/-- The constant stateDir of libkv.go line 46. -/
def stateDir : String := "/var/lib/cni/libkv"

/-- The scratch filesystem, modelled as a pure map from paths to file
contents. MkdirAll and WriteFile failures are not modelled. -/
abbrev ScratchFS := List (String × Bytes)

/-- The path filepath.Join(stateDir, containerID) of libkv.go lines 125
and 130. -/
def scratchPath (containerID : String) : String :=
  stateDir ++ "/" ++ containerID

/-- Writing a file: replaces the content at the path, or creates it. -/
def fsWrite (fs : ScratchFS) (path : String) (b : Bytes) : ScratchFS :=
  match fs with
  | [] => [(path, b)]
  | (p, v) :: rest =>
      if p = path then (path, b) :: rest else (p, v) :: fsWrite rest path b

/-- Reading a file: the content at the path, if the file exists. -/
def fsRead (fs : ScratchFS) (path : String) : Option Bytes :=
  match fs with
  | [] => none
  | (p, v) :: rest => if p = path then some v else fsRead rest path

/-- Removing a file: deletes the path if present; removing an absent path is
a no-op (the deferred os.Remove result is discarded in the source). -/
def fsRemove (fs : ScratchFS) (path : String) : ScratchFS :=
  match fs with
  | [] => []
  | (p, v) :: rest =>
      if p = path then fsRemove rest path else (p, v) :: fsRemove rest path

/-- The function saveScratchNetConf of libkv.go lines 121-127: write the raw
netconf bytes to stateDir/containerID. -/
def saveScratchNetConf (containerID : String) (netconf : Bytes)
    (fs : ScratchFS) : ScratchFS :=
  fsWrite fs (scratchPath containerID) netconf

/-- The function consumeScratchNetConf of libkv.go lines 129-134: read the
file at stateDir/containerID and remove it on return via the deferred
os.Remove, whether or not the read succeeded. -/
def consumeScratchNetConf (containerID : String) (fs : ScratchFS) :
    Option Bytes × ScratchFS :=
  (fsRead fs (scratchPath containerID), fsRemove fs (scratchPath containerID))

/-- The observable events of one cmdAdd or cmdDel run, in order: the store
read, the scratch write, and each delegation call with the handler type tag
and the serialized entry passed to it. -/
inductive Event : Type
  | storeGet : String → Event
  | scratchWrite : String → Bytes → Event
  | delegateAdd : String → Bytes → Event
  | delegateDel : String → Bytes → Event

/-- Outcome of cmdAdd over an abstract delegation result type. printed is
the final result.Print call on the possibly-nil first result; panicked is
the runtime panic of the unchecked type assertion at line 96; fatal is the
log.Fatal at line 72. -/
inductive AddOutcome (ρ : Type) : Type
  | printed : Option ρ → AddOutcome ρ
  | err : Error → AddOutcome ρ
  | panicked : AddOutcome ρ
  | fatal : AddOutcome ρ

/-- Outcome of cmdDel. -/
inductive DelOutcome : Type
  | done : DelOutcome
  | err : Error → DelOutcome
  | panicked : DelOutcome

/-- The fields of skel.CmdArgs used by this plugin. -/
structure CmdArgs where
  containerID : String
  stdinData : Bytes

/-- The unchecked Go type assertion on the "type" field at libkv.go lines 96
and 159: some t when the field is present and holds the string t, none when
the assertion would panic (field absent or not a string). -/
def typeAssert (conf : List (String × Json)) : Option String :=
  match lookupField conf "type" with
  | some (.str t) => some t
  | _ => none

/-- The loop of cmdAdd, libkv.go lines 91-104: for each entry in index
order, marshal it, read its "type" field with the unchecked string type
assertion (a non-string or absent value panics before any call is made),
invoke DelegateAdd, abort on a delegation error, and record the result of
index 0 only. Returns the outcome together with the delegation events. -/
def delegateAddLoop {ρ : Type} (delegate : String → Bytes → Except String ρ) :
    List (List (String × Json)) → Nat → Option ρ → AddOutcome ρ × List Event
  | [], _, result => (.printed result, [])
  | conf :: rest, index, result =>
    let confBytes := marshalConf conf
    match typeAssert conf with
    | some t =>
      match delegate t confBytes with
      | .error e => (.err (.delegationError e), [.delegateAdd t confBytes])
      | .ok res =>
        let result2 := if index = 0 then some res else result
        let r := delegateAddLoop delegate rest (index + 1) result2
        (r.1, .delegateAdd t confBytes :: r.2)
    | none => (.panicked, [])

/-- The function cmdAdd of libkv.go lines 56-107: load the plugin config,
create the store (log.Fatal on an unregistered backend), fetch the value at
BasePath plus ContainerID, unmarshal it, persist the raw bytes to the
scratch store, then delegate each entry in order and print the first
result. The remote store is a parameter mapping keys to values (an absent
key models the kv.Get error); the child handlers are the delegate
parameter. -/
def cmdAdd {ρ : Type} (store : String → Option Bytes)
    (delegate : String → Bytes → Except String ρ) (args : CmdArgs)
    (fs : ScratchFS) : AddOutcome ρ × List Event × ScratchFS :=
  match loadPluginConfig args.stdinData with
  | .error e => (.err e, [], fs)
  | .ok config =>
    match registeredBackends.contains config.storeBackend with
    | false => (.fatal, [], fs)
    | true =>
      let key := config.basePath ++ args.containerID
      match store key with
      | none => (.err (.storeAccessError key), [.storeGet key], fs)
      | some value =>
        match unmarshalNetConfs value with
        | none => (.err .unmarshalError, [.storeGet key], fs)
        | some netconfs =>
          let fs1 := saveScratchNetConf args.containerID value fs
          let r := delegateAddLoop delegate netconfs 0 none
          (r.1, .storeGet key :: .scratchWrite args.containerID value :: r.2,
           fs1)

/-- The loop of cmdDel, libkv.go lines 154-162: same iteration as the add
loop, with DelegateDel (which returns only a possible error, modelled as
some message) and no result capture. -/
def delegateDelLoop (delegate : String → Bytes → Option String) :
    List (List (String × Json)) → DelOutcome × List Event
  | [] => (.done, [])
  | conf :: rest =>
    let confBytes := marshalConf conf
    match typeAssert conf with
    | some t =>
      match delegate t confBytes with
      | some e => (.err (.delegationError e), [.delegateDel t confBytes])
      | none =>
        let r := delegateDelLoop delegate rest
        (r.1, .delegateDel t confBytes :: r.2)
    | none => (.panicked, [])

/-- The function cmdDel of libkv.go lines 143-164: consume the scratch
record (read plus unconditional deferred removal), unmarshal it, and
delegate each entry in order. -/
def cmdDel (delegate : String → Bytes → Option String) (containerID : String)
    (fs : ScratchFS) : DelOutcome × List Event × ScratchFS :=
  let read := consumeScratchNetConf containerID fs
  match read.1 with
  | none => (.err .scratchNotFound, [], read.2)
  | some netconfBytes =>
    match unmarshalNetConfs netconfBytes with
    | none => (.err .parseNetconfError, [], read.2)
    | some netconfs =>
      let r := delegateDelLoop delegate netconfs
      (r.1, r.2, read.2)

/-- The "type" tag of an entry, for stating trace properties; meaningful on
entries whose "type" field is a string. -/
def confType (conf : List (String × Json)) : String :=
  (typeAssert conf).getD ""

/-- The handler tags of the attach delegations in a trace, in order. -/
def addTypes (evs : List Event) : List String :=
  evs.filterMap fun e =>
    match e with
    | .delegateAdd t _ => some t
    | _ => none

/-- The handler tags of the detach delegations in a trace, in order. -/
def delTypes (evs : List Event) : List String :=
  evs.filterMap fun e =>
    match e with
    | .delegateDel t _ => some t
    | _ => none

/-- Whether an attach delegation result is a success. -/
def exceptOk {ρ : Type} : Except String ρ → Bool
  | .ok _ => true
  | .error _ => false

/-- Whether a cmdAdd outcome is a returned error value. -/
def isErrOutcome {ρ : Type} : AddOutcome ρ → Bool
  | .err _ => true
  | _ => false

/-- Whether loading the plugin config succeeds. -/
def loadSucceeds (b : Bytes) : Bool :=
  match loadPluginConfig b with
  | .ok _ => true
  | .error _ => false

/-- Whether the bytes are well-formed JSON for the LibKvConf shape. -/
def bytesDecode : Bytes → Bool
  | .json v => (decodeLibKvConf v).isSome
  | .malformed _ => false

end LibKv

namespace LibKv

theorem fsRead_fsWrite (fs : ScratchFS) (p : String) (b : Bytes) :
    fsRead (fsWrite fs p b) p = some b := by
  induction fs with
  | nil => simp [fsWrite, fsRead]
  | cons kv rest ih =>
    obtain ⟨q, v⟩ := kv
    by_cases h : q = p <;> simp [fsWrite, fsRead, h, ih]

theorem fsRead_fsRemove (fs : ScratchFS) (p : String) :
    fsRead (fsRemove fs p) p = none := by
  induction fs with
  | nil => simp [fsRemove, fsRead]
  | cons kv rest ih =>
    obtain ⟨q, v⟩ := kv
    by_cases h : q = p <;> simp [fsRemove, fsRead, h, ih]

theorem cmdDel_fs (delegate : String → Bytes → Option String)
    (containerID : String) (fs : ScratchFS) :
    (cmdDel delegate containerID fs).2.2 =
      fsRemove fs (scratchPath containerID) := by
  unfold cmdDel
  simp only [consumeScratchNetConf]
  split
  · rfl
  · split <;> rfl

theorem cmdDel_read_none (delegate : String → Bytes → Option String)
    (containerID : String) (fs : ScratchFS)
    (h : fsRead fs (scratchPath containerID) = none) :
    (cmdDel delegate containerID fs).1 = .err .scratchNotFound := by
  simp only [cmdDel, consumeScratchNetConf, h]

theorem addLoop_events_delegate {ρ : Type}
    (delegate : String → Bytes → Except String ρ)
    (confs : List (List (String × Json))) (idx : Nat) (acc : Option ρ) :
    ∀ e ∈ (delegateAddLoop delegate confs idx acc).2,
      ∃ t b, e = Event.delegateAdd t b := by
  induction confs generalizing idx acc with
  | nil => intro e he; simp [delegateAddLoop] at he
  | cons conf rest ih =>
    intro e he
    unfold delegateAddLoop at he
    cases hl : typeAssert conf with
    | none => simp only [hl] at he; simp at he
    | some t =>
      simp only [hl] at he
      cases hd : delegate t (marshalConf conf) with
      | error msg =>
        simp only [hd] at he
        simp at he
        exact ⟨_, _, he⟩
      | ok res =>
        simp only [hd] at he
        simp only [List.mem_cons] at he
        rcases he with he | he
        · exact ⟨_, _, he⟩
        · exact ih _ _ e he

/-- Claim C1: in every setup invocation whose fetched bytes parse
successfully, the event sequence of cmdAdd starts with the store read and
the scratch write, and everything after the scratch write is an attach
delegation: the scratch write precedes every delegation call. -/
theorem scratch_write_precedes_delegation {ρ : Type}
    (store : String → Option Bytes)
    (delegate : String → Bytes → Except String ρ) (args : CmdArgs)
    (fs : ScratchFS) (config : LibKvConf) (value : Bytes)
    (confs : List (List (String × Json)))
    (hload : loadPluginConfig args.stdinData = .ok config)
    (hreg : registeredBackends.contains config.storeBackend = true)
    (hget : store (config.basePath ++ args.containerID) = some value)
    (hparse : unmarshalNetConfs value = some confs) :
    ∃ devs,
      (cmdAdd store delegate args fs).2.1 =
        .storeGet (config.basePath ++ args.containerID) ::
          .scratchWrite args.containerID value :: devs ∧
      ∀ e ∈ devs, ∃ t b, e = Event.delegateAdd t b := by
  refine ⟨(delegateAddLoop delegate confs 0 none).2, ?_, ?_⟩
  · simp only [cmdAdd, hload, hreg, hget, hparse]
  · exact addLoop_events_delegate delegate confs 0 none

/-- Witness for C1 at a concrete input: a two-entry list fetched for
container c with the etcd backend. -/
theorem scratch_write_precedes_delegation_witness :
    ∃ devs,
      (cmdAdd
        (fun k =>
          if k = "cni/c" then
            some (.json (.arr [.obj [("type", .str "bridge")],
                               .obj [("type", .str "loopback")]]))
          else none)
        (fun _ _ => Except.ok (7 : Nat))
        ⟨"c", .json (.obj [("storeBackend", .str "etcd"),
                           ("uri", .str "localhost:2379"),
                           ("basePath", .str "cni")])⟩
        []).2.1 =
        .storeGet ("cni/" ++ "c") ::
          .scratchWrite "c"
            (.json (.arr [.obj [("type", .str "bridge")],
                          .obj [("type", .str "loopback")]])) :: devs ∧
      ∀ e ∈ devs, ∃ t b, e = Event.delegateAdd t b :=
  scratch_write_precedes_delegation _ _ _ []
    ⟨"etcd", "localhost:2379", "cni/", []⟩ _
    [[("type", .str "bridge")], [("type", .str "loopback")]]
    rfl rfl rfl rfl

end LibKv

namespace LibKv

/-- Claim C5: writing the fetched bytes to the scratch store for a container
identifier and then consuming the scratch record for the same identifier
yields exactly the written bytes: the write-then-read round trip is the
identity on the stored bytes. -/
theorem scratch_write_read_roundtrip (containerID : String) (b : Bytes)
    (fs : ScratchFS) :
    (consumeScratchNetConf containerID
      (saveScratchNetConf containerID b fs)).1 = some b := by
  simp only [consumeScratchNetConf, saveScratchNetConf]
  exact fsRead_fsWrite fs _ b

/-- Claim C6: teardown removes the scratch record as part of its read, no
matter what the detach delegations do: after any cmdDel run the record for
the container identifier is gone, and a second cmdDel for the same
identifier fails with the not-found read error. -/
theorem teardown_erases_scratch_record
    (delegate : String → Bytes → Option String) (containerID : String)
    (fs : ScratchFS) :
    fsRead (cmdDel delegate containerID fs).2.2 (scratchPath containerID) =
      none ∧
    ∀ delegate2 : String → Bytes → Option String,
      (cmdDel delegate2 containerID (cmdDel delegate containerID fs).2.2).1 =
        .err .scratchNotFound := by
  have hfs := cmdDel_fs delegate containerID fs
  have hnone :
      fsRead (cmdDel delegate containerID fs).2.2 (scratchPath containerID) =
        none := by
    rw [hfs]; exact fsRead_fsRemove fs _
  exact ⟨hnone, fun delegate2 => cmdDel_read_none delegate2 containerID _ hnone⟩

end LibKv

namespace LibKv

theorem exceptOk_exists {ρ : Type} (e : Except String ρ)
    (h : exceptOk e = true) : ∃ r, e = .ok r := by
  cases e with
  | ok r => exact ⟨r, rfl⟩
  | error msg => simp [exceptOk] at h

theorem cmdAdd_eq {ρ : Type} (store : String → Option Bytes)
    (delegate : String → Bytes → Except String ρ) (args : CmdArgs)
    (fs : ScratchFS) (config : LibKvConf) (value : Bytes)
    (confs : List (List (String × Json)))
    (hload : loadPluginConfig args.stdinData = .ok config)
    (hreg : registeredBackends.contains config.storeBackend = true)
    (hget : store (config.basePath ++ args.containerID) = some value)
    (hparse : unmarshalNetConfs value = some confs) :
    cmdAdd store delegate args fs =
      ((delegateAddLoop delegate confs 0 none).1,
       .storeGet (config.basePath ++ args.containerID) ::
         .scratchWrite args.containerID value ::
           (delegateAddLoop delegate confs 0 none).2,
       saveScratchNetConf args.containerID value fs) := by
  simp only [cmdAdd, hload, hreg, hget, hparse]

theorem addLoop_ok {ρ : Type} (delegate : String → Bytes → Except String ρ)
    (hok : ∀ t b, exceptOk (delegate t b) = true) :
    ∀ (confs : List (List (String × Json))) (idx : Nat) (acc : Option ρ),
      (∀ c ∈ confs, (typeAssert c).isSome = true) →
      ∃ acc2,
        delegateAddLoop delegate confs idx acc =
          (.printed acc2,
           confs.map fun c => Event.delegateAdd (confType c) (marshalConf c))
  | [], idx, acc, _ => ⟨acc, rfl⟩
  | conf :: rest, idx, acc, hall => by
    obtain ⟨t, ht⟩ := Option.isSome_iff_exists.mp (hall conf (by simp))
    obtain ⟨r, hr⟩ := exceptOk_exists _ (hok t (marshalConf conf))
    obtain ⟨acc2, hrec⟩ :=
      addLoop_ok delegate hok rest (idx + 1)
        (if idx = 0 then some r else acc)
        (fun c hc => hall c (List.mem_cons_of_mem _ hc))
    refine ⟨acc2, ?_⟩
    unfold delegateAddLoop
    simp only [ht, hr, hrec, List.map_cons]
    have hct : confType conf = t := by simp [confType, ht]
    simp [hct]

theorem delLoop_ok (delegate : String → Bytes → Option String)
    (hok : ∀ t b, delegate t b = none) :
    ∀ confs : List (List (String × Json)),
      (∀ c ∈ confs, (typeAssert c).isSome = true) →
      delegateDelLoop delegate confs =
        (.done,
         confs.map fun c => Event.delegateDel (confType c) (marshalConf c))
  | [], _ => rfl
  | conf :: rest, hall => by
    obtain ⟨t, ht⟩ := Option.isSome_iff_exists.mp (hall conf (by simp))
    have hrec :=
      delLoop_ok delegate hok rest (fun c hc => hall c (List.mem_cons_of_mem _ hc))
    unfold delegateDelLoop
    simp only [ht, hok, hrec, List.map_cons]
    have hct : confType conf = t := by simp [confType, ht]
    simp [hct]

theorem addTypes_map_delegate (confs : List (List (String × Json))) :
    addTypes (confs.map fun c => Event.delegateAdd (confType c) (marshalConf c)) =
      confs.map confType := by
  induction confs with
  | nil => rfl
  | cons c cs ih =>
    simp only [List.map_cons, addTypes, List.filterMap_cons] at *
    rw [ih]

theorem delTypes_map_delegate (confs : List (List (String × Json))) :
    delTypes (confs.map fun c => Event.delegateDel (confType c) (marshalConf c)) =
      confs.map confType := by
  induction confs with
  | nil => rfl
  | cons c cs ih =>
    simp only [List.map_cons, delTypes, List.filterMap_cons] at *
    rw [ih]

theorem cmdDel_ok_trace (delegate : String → Bytes → Option String)
    (containerID : String) (fs : ScratchFS) (value : Bytes)
    (confs : List (List (String × Json)))
    (hread : fsRead fs (scratchPath containerID) = some value)
    (hparse : unmarshalNetConfs value = some confs)
    (hall : ∀ c ∈ confs, (typeAssert c).isSome = true)
    (hok : ∀ t b, delegate t b = none) :
    cmdDel delegate containerID fs =
      (.done,
       confs.map fun c => Event.delegateDel (confType c) (marshalConf c),
       fsRemove fs (scratchPath containerID)) := by
  simp only [cmdDel, consumeScratchNetConf, hread, hparse]
  rw [delLoop_ok delegate hok confs hall]

/-- Claim C3: for a parsed list whose entries all carry string "type" fields
and whose delegations all succeed, the sequence of handler types invoked by
setup equals the index order of the list, and the sequence invoked by
teardown on the scratch state that setup persisted equals the same index
order; delegation is sequential on both paths. -/
theorem delegation_order_preserved {ρ : Type} (store : String → Option Bytes)
    (delegate : String → Bytes → Except String ρ)
    (delegate2 : String → Bytes → Option String) (args : CmdArgs)
    (fs : ScratchFS) (config : LibKvConf) (value : Bytes)
    (confs : List (List (String × Json)))
    (hload : loadPluginConfig args.stdinData = .ok config)
    (hreg : registeredBackends.contains config.storeBackend = true)
    (hget : store (config.basePath ++ args.containerID) = some value)
    (hparse : unmarshalNetConfs value = some confs)
    (hall : ∀ c ∈ confs, (typeAssert c).isSome = true)
    (hok : ∀ t b, exceptOk (delegate t b) = true)
    (hok2 : ∀ t b, delegate2 t b = none) :
    addTypes (cmdAdd store delegate args fs).2.1 = confs.map confType ∧
    delTypes (cmdDel delegate2 args.containerID
        (cmdAdd store delegate args fs).2.2).2.1 = confs.map confType := by
  have hadd := cmdAdd_eq store delegate args fs config value confs
    hload hreg hget hparse
  obtain ⟨acc2, hloop⟩ := addLoop_ok delegate hok confs 0 none hall
  constructor
  · rw [hadd, hloop]
    simp only [addTypes, List.filterMap_cons]
    exact addTypes_map_delegate confs
  · rw [hadd]
    have hread :
        fsRead (saveScratchNetConf args.containerID value fs)
          (scratchPath args.containerID) = some value :=
      fsRead_fsWrite fs _ value
    rw [cmdDel_ok_trace delegate2 args.containerID _ value confs
      hread hparse hall hok2]
    exact delTypes_map_delegate confs

/-- Witness for C3 at a concrete input: the two-entry bridge and loopback
list of the documented scenario. -/
theorem delegation_order_preserved_witness :
    addTypes (cmdAdd
      (fun k =>
        if k = "cni/c" then
          some (.json (.arr [.obj [("type", .str "bridge")],
                             .obj [("type", .str "loopback")]]))
        else none)
      (fun _ _ => Except.ok (7 : Nat))
      ⟨"c", .json (.obj [("storeBackend", .str "etcd"),
                         ("uri", .str "localhost:2379"),
                         ("basePath", .str "cni")])⟩ []).2.1 =
      [[("type", Json.str "bridge")],
       [("type", Json.str "loopback")]].map confType ∧
    delTypes (cmdDel (fun _ _ => none) "c"
      (cmdAdd
        (fun k =>
          if k = "cni/c" then
            some (.json (.arr [.obj [("type", .str "bridge")],
                               .obj [("type", .str "loopback")]]))
          else none)
        (fun _ _ => Except.ok (7 : Nat))
        ⟨"c", .json (.obj [("storeBackend", .str "etcd"),
                           ("uri", .str "localhost:2379"),
                           ("basePath", .str "cni")])⟩ []).2.2).2.1 =
      [[("type", Json.str "bridge")],
       [("type", Json.str "loopback")]].map confType :=
  delegation_order_preserved _ _ _ _ []
    ⟨"etcd", "localhost:2379", "cni/", []⟩ _
    [[("type", .str "bridge")], [("type", .str "loopback")]]
    rfl rfl rfl rfl
    (by intro c hc
        simp only [List.mem_cons, List.not_mem_nil, or_false] at hc
        rcases hc with rfl | rfl <;> rfl)
    (fun _ _ => rfl) (fun _ _ => rfl)

end LibKv

namespace LibKv

theorem addLoop_keeps_acc {ρ : Type} (delegate : String → Bytes → Except String ρ)
    (hok : ∀ t b, exceptOk (delegate t b) = true) :
    ∀ (confs : List (List (String × Json))) (idx : Nat) (acc : Option ρ),
      idx ≠ 0 →
      (∀ c ∈ confs, (typeAssert c).isSome = true) →
      (delegateAddLoop delegate confs idx acc).1 = .printed acc
  | [], _, _, _, _ => rfl
  | conf :: rest, idx, acc, hidx, hall => by
    obtain ⟨t, ht⟩ := Option.isSome_iff_exists.mp (hall conf (by simp))
    obtain ⟨r, hr⟩ := exceptOk_exists _ (hok t (marshalConf conf))
    have hrec :=
      addLoop_keeps_acc delegate hok rest (idx + 1) acc (Nat.succ_ne_zero idx)
        (fun c hc => hall c (List.mem_cons_of_mem _ hc))
    unfold delegateAddLoop
    simp only [ht, hr, if_neg hidx, hrec]

/-- Claim C4: when the fetched list is non-empty, every entry has a string
"type" field and every attach delegation succeeds, the value printed by
setup is exactly the delegation result of the first entry; the results of
the later entries never reach the returned value. -/
theorem first_result_authoritative {ρ : Type} (store : String → Option Bytes)
    (delegate : String → Bytes → Except String ρ) (args : CmdArgs)
    (fs : ScratchFS) (config : LibKvConf) (value : Bytes)
    (c0 : List (String × Json)) (rest : List (List (String × Json))) (r : ρ)
    (hload : loadPluginConfig args.stdinData = .ok config)
    (hreg : registeredBackends.contains config.storeBackend = true)
    (hget : store (config.basePath ++ args.containerID) = some value)
    (hparse : unmarshalNetConfs value = some (c0 :: rest))
    (hall : ∀ c ∈ c0 :: rest, (typeAssert c).isSome = true)
    (hok : ∀ t b, exceptOk (delegate t b) = true)
    (hr : delegate (confType c0) (marshalConf c0) = .ok r) :
    (cmdAdd store delegate args fs).1 = .printed (some r) := by
  have hadd := cmdAdd_eq store delegate args fs config value (c0 :: rest)
    hload hreg hget hparse
  rw [hadd]
  obtain ⟨t, ht⟩ := Option.isSome_iff_exists.mp (hall c0 (by simp))
  have hct : confType c0 = t := by simp [confType, ht]
  rw [hct] at hr
  have hrec :=
    addLoop_keeps_acc delegate hok rest 1 (some r) Nat.one_ne_zero
      (fun c hc => hall c (List.mem_cons_of_mem _ hc))
  unfold delegateAddLoop
  simp only [ht, hr]
  simpa using hrec

/-- Witness for C4 at a concrete input: the bridge result 7 is printed, and
the loopback result 8 is not. -/
theorem first_result_authoritative_witness :
    (cmdAdd
      (fun k =>
        if k = "cni/c" then
          some (.json (.arr [.obj [("type", .str "bridge")],
                             .obj [("type", .str "loopback")]]))
        else none)
      (fun t _ => if t = "bridge" then Except.ok 7 else Except.ok (8 : Nat))
      ⟨"c", .json (.obj [("storeBackend", .str "etcd"),
                         ("uri", .str "localhost:2379"),
                         ("basePath", .str "cni")])⟩ []).1 =
      .printed (some 7) :=
  first_result_authoritative _ _ _ []
    ⟨"etcd", "localhost:2379", "cni/", []⟩ _
    [("type", .str "bridge")] [[("type", .str "loopback")]] 7
    rfl rfl rfl rfl
    (by intro c hc
        simp only [List.mem_cons, List.not_mem_nil, or_false] at hc
        rcases hc with rfl | rfl <;> rfl)
    (by intro t b
        by_cases h : t = "bridge" <;> simp [exceptOk, h])
    rfl

end LibKv

namespace LibKv

/-- Counterexample for C2: with the store value equal to the empty JSON list,
setup does not fail with a parse error — it writes the scratch record, runs
no delegation and prints the nil result — and teardown on a persisted empty
list returns success rather than failing. This is exactly what the claim
denies. -/
theorem empty_list_counterexample :
    (cmdAdd
      (fun k => if k = "cni/c" then some (.json (.arr [])) else none)
      (fun _ _ => Except.ok (7 : Nat))
      ⟨"c", .json (.obj [("storeBackend", .str "etcd"),
                         ("uri", .str "localhost:2379"),
                         ("basePath", .str "cni")])⟩ []) =
      (.printed none,
       [.storeGet "cni/c", .scratchWrite "c" (.json (.arr []))],
       [(scratchPath "c", .json (.arr []))]) ∧
    cmdDel (fun _ _ => none) "c" [(scratchPath "c", .json (.arr []))] =
      (.done, [], []) :=
  ⟨rfl, rfl⟩

/-- Claim C2 amended: an empty configuration list is accepted, not rejected.
Setup on a store value that parses to the empty list succeeds at the parse
step, writes the scratch record, performs no delegation and finishes by
printing the nil result; teardown whose persisted record parses to the
empty list performs no delegation and returns success, removing the
record. -/
theorem empty_list_accepted {ρ : Type} (store : String → Option Bytes)
    (delegate : String → Bytes → Except String ρ) (args : CmdArgs)
    (fs : ScratchFS) (config : LibKvConf)
    (delegate2 : String → Bytes → Option String) (containerID2 : String)
    (fs2 : ScratchFS)
    (hload : loadPluginConfig args.stdinData = .ok config)
    (hreg : registeredBackends.contains config.storeBackend = true)
    (hget : store (config.basePath ++ args.containerID) =
      some (.json (.arr [])))
    (hread : fsRead fs2 (scratchPath containerID2) =
      some (.json (.arr []))) :
    cmdAdd store delegate args fs =
      (.printed none,
       [.storeGet (config.basePath ++ args.containerID),
        .scratchWrite args.containerID (.json (.arr []))],
       saveScratchNetConf args.containerID (.json (.arr [])) fs) ∧
    cmdDel delegate2 containerID2 fs2 =
      (.done, [], fsRemove fs2 (scratchPath containerID2)) := by
  constructor
  · exact cmdAdd_eq store delegate args fs config (.json (.arr [])) []
      hload hreg hget rfl
  · simp only [cmdDel, consumeScratchNetConf, hread]
    rfl

/-- Witness for the amended C2 at a concrete input. -/
theorem empty_list_accepted_witness :
    cmdAdd
      (fun k => if k = "cni/d" then some (.json (.arr [])) else none)
      (fun _ _ => Except.ok (3 : Nat))
      ⟨"d", .json (.obj [("storeBackend", .str "consul"),
                         ("basePath", .str "cni/")])⟩ [] =
      (.printed none,
       [.storeGet ("cni/" ++ "d"),
        .scratchWrite "d" (.json (.arr []))],
       saveScratchNetConf "d" (.json (.arr [])) []) ∧
    cmdDel (fun _ _ => some "boom") "d"
      [(scratchPath "d", .json (.arr []))] =
      (.done, [], fsRemove [(scratchPath "d", .json (.arr []))]
        (scratchPath "d")) :=
  empty_list_accepted _ _ _ [] ⟨"consul", "", "cni/", []⟩ _ "d"
    [(scratchPath "d", .json (.arr []))] rfl rfl rfl (by simp [fsRead])

end LibKv

namespace LibKv

theorem addLoop_bad_type {ρ : Type} (delegate : String → Bytes → Except String ρ)
    (hok : ∀ t b, exceptOk (delegate t b) = true) :
    ∀ (pre : List (List (String × Json))) (bad : List (String × Json))
      (suf : List (List (String × Json))) (idx : Nat) (acc : Option ρ),
      (∀ c ∈ pre, (typeAssert c).isSome = true) →
      typeAssert bad = none →
      delegateAddLoop delegate (pre ++ bad :: suf) idx acc =
        (.panicked,
         pre.map fun c => Event.delegateAdd (confType c) (marshalConf c))
  | [], bad, suf, idx, acc, _, hbad => by
    unfold delegateAddLoop
    simp [hbad]
  | conf :: pre, bad, suf, idx, acc, hall, hbad => by
    obtain ⟨t, ht⟩ := Option.isSome_iff_exists.mp (hall conf (by simp))
    obtain ⟨r, hr⟩ := exceptOk_exists _ (hok t (marshalConf conf))
    have hrec :=
      addLoop_bad_type delegate hok pre bad suf (idx + 1)
        (if idx = 0 then some r else acc)
        (fun c hc => hall c (List.mem_cons_of_mem _ hc)) hbad
    have hct : confType conf = t := by simp [confType, ht]
    rw [List.cons_append]
    unfold delegateAddLoop
    simp only [ht, hr, hrec, List.map_cons, hct]

/-- Counterexample for C7: a single-entry list whose "type" field holds the
number 42. The claim says setup aborts with a DelegationError surfaced as an
error result; in the code the unchecked type assertion panics instead, so
the outcome is the panic, not an error result. -/
theorem bad_type_not_error_result :
    (cmdAdd
      (fun k => if k = "cni/c" then
          some (.json (.arr [.obj [("type", .num 42)]])) else none)
      (fun _ _ => Except.ok (7 : Nat))
      ⟨"c", .json (.obj [("storeBackend", .str "etcd"),
                         ("uri", .str "localhost:2379"),
                         ("basePath", .str "cni")])⟩ []).1 =
      (.panicked : AddOutcome Nat) ∧
    isErrOutcome (cmdAdd
      (fun k => if k = "cni/c" then
          some (.json (.arr [.obj [("type", .num 42)]])) else none)
      (fun _ _ => Except.ok (7 : Nat))
      ⟨"c", .json (.obj [("storeBackend", .str "etcd"),
                         ("uri", .str "localhost:2379"),
                         ("basePath", .str "cni")])⟩ []).1 = false :=
  ⟨rfl, rfl⟩

/-- Claim C7 amended: when the parsed list contains an entry whose "type"
field is missing or not a string, setup aborts immediately through the
runtime panic of the unchecked type assertion — not through a returned
DelegationError — and no entries after the offending one are delegated:
exactly the entries before it appear in the delegation trace. -/
theorem bad_type_aborts_via_panic {ρ : Type} (store : String → Option Bytes)
    (delegate : String → Bytes → Except String ρ) (args : CmdArgs)
    (fs : ScratchFS) (config : LibKvConf) (value : Bytes)
    (pre : List (List (String × Json))) (bad : List (String × Json))
    (suf : List (List (String × Json)))
    (hload : loadPluginConfig args.stdinData = .ok config)
    (hreg : registeredBackends.contains config.storeBackend = true)
    (hget : store (config.basePath ++ args.containerID) = some value)
    (hparse : unmarshalNetConfs value = some (pre ++ bad :: suf))
    (hpre : ∀ c ∈ pre, (typeAssert c).isSome = true)
    (hok : ∀ t b, exceptOk (delegate t b) = true)
    (hbad : typeAssert bad = none) :
    (cmdAdd store delegate args fs).1 = .panicked ∧
    addTypes (cmdAdd store delegate args fs).2.1 = pre.map confType := by
  have hadd := cmdAdd_eq store delegate args fs config value (pre ++ bad :: suf)
    hload hreg hget hparse
  have hloop := addLoop_bad_type delegate hok pre bad suf 0 none hpre hbad
  constructor
  · rw [hadd, hloop]
  · rw [hadd, hloop]
    simp only [addTypes, List.filterMap_cons]
    exact addTypes_map_delegate pre

/-- Witness for the amended C7 at a concrete input: the bridge entry is
delegated, then the entry with the numeric "type" panics and the loopback
entry after it is never delegated. -/
theorem bad_type_aborts_via_panic_witness :
    (cmdAdd
      (fun k => if k = "cni/c" then
          some (.json (.arr [.obj [("type", .str "bridge")],
                             .obj [("type", .num 42)],
                             .obj [("type", .str "loopback")]])) else none)
      (fun _ _ => Except.ok (7 : Nat))
      ⟨"c", .json (.obj [("storeBackend", .str "etcd"),
                         ("uri", .str "localhost:2379"),
                         ("basePath", .str "cni")])⟩ []).1 = .panicked ∧
    addTypes (cmdAdd
      (fun k => if k = "cni/c" then
          some (.json (.arr [.obj [("type", .str "bridge")],
                             .obj [("type", .num 42)],
                             .obj [("type", .str "loopback")]])) else none)
      (fun _ _ => Except.ok (7 : Nat))
      ⟨"c", .json (.obj [("storeBackend", .str "etcd"),
                         ("uri", .str "localhost:2379"),
                         ("basePath", .str "cni")])⟩ []).2.1 =
      [[("type", Json.str "bridge")]].map confType :=
  bad_type_aborts_via_panic _ _ _ []
    ⟨"etcd", "localhost:2379", "cni/", []⟩ _
    [[("type", .str "bridge")]] [("type", .num 42)]
    [[("type", .str "loopback")]]
    rfl rfl rfl rfl
    (by intro c hc
        simp only [List.mem_cons, List.not_mem_nil, or_false] at hc
        subst hc; rfl)
    (fun _ _ => rfl) rfl

end LibKv

namespace LibKv

theorem strHasSuffix_append_slash (p : String) :
    strHasSuffix (p ++ "/") "/" = true := by
  unfold strHasSuffix
  rw [String.data_append]
  have h : "/".data = ['/'] := rfl
  rw [h, List.reverse_append]
  simp [List.isPrefixOf]

theorem load_basePath_suffix (b : Bytes) (config : LibKvConf)
    (h : loadPluginConfig b = .ok config) :
    strHasSuffix config.basePath "/" = true := by
  cases b with
  | malformed tag => simp [loadPluginConfig] at h
  | json v =>
    cases hd : decodeLibKvConf v with
    | none => simp [loadPluginConfig, hd] at h
    | some c0 =>
      simp only [loadPluginConfig, hd] at h
      cases h
      by_cases hs : strHasSuffix c0.basePath "/"
      · simp [hs]
      · simpa [hs] using strHasSuffix_append_slash c0.basePath

/-- Claim C8: the store key used by setup is the normalized base path
concatenated with the container identifier, where the normalized base path
is the configured one when it already ends with the separator "/" and the
configured one with "/" appended otherwise, so it always ends with the
separator. -/
theorem store_key_derivation {ρ : Type} (store : String → Option Bytes)
    (delegate : String → Bytes → Except String ρ) (args : CmdArgs)
    (fs : ScratchFS) (config : LibKvConf) (v : Json) (c0 : LibKvConf)
    (hstdin : args.stdinData = .json v)
    (hdec : decodeLibKvConf v = some c0)
    (hload : loadPluginConfig args.stdinData = .ok config)
    (hreg : registeredBackends.contains config.storeBackend = true) :
    config.basePath =
      (if strHasSuffix c0.basePath "/" then c0.basePath
       else c0.basePath ++ "/") ∧
    strHasSuffix config.basePath "/" = true ∧
    ∃ rest,
      (cmdAdd store delegate args fs).2.1 =
        .storeGet (config.basePath ++ args.containerID) :: rest := by
  refine ⟨?_, load_basePath_suffix _ _ hload, ?_⟩
  · rw [hstdin] at hload
    simp only [loadPluginConfig, hdec] at hload
    cases hload
    rfl
  · cases hst : store (config.basePath ++ args.containerID) with
    | none =>
      simp only [cmdAdd, hload, hreg, hst]
      exact ⟨[], rfl⟩
    | some value =>
      cases hum : unmarshalNetConfs value with
      | none =>
        simp only [cmdAdd, hload, hreg, hst, hum]
        exact ⟨[], rfl⟩
      | some confs =>
        simp only [cmdAdd, hload, hreg, hst, hum]
        exact ⟨_, rfl⟩

/-- Witness for C8 at a concrete input whose configured base path "cni"
lacks the trailing separator: the normalized base path is "cni/" and the key
is "cni/" concatenated with the container identifier. -/
theorem store_key_derivation_witness :
    (⟨"etcd", "localhost:2379", "cni/", []⟩ : LibKvConf).basePath =
      (if strHasSuffix "cni" "/" then "cni" else "cni" ++ "/") ∧
    strHasSuffix (⟨"etcd", "localhost:2379", "cni/", []⟩ : LibKvConf).basePath
      "/" = true ∧
    ∃ rest,
      (cmdAdd (fun _ => none) (fun _ _ => Except.ok (7 : Nat))
        ⟨"c", .json (.obj [("storeBackend", .str "etcd"),
                           ("uri", .str "localhost:2379"),
                           ("basePath", .str "cni")])⟩ []).2.1 =
        .storeGet ((⟨"etcd", "localhost:2379", "cni/", []⟩ :
          LibKvConf).basePath ++ "c") :: rest :=
  store_key_derivation _ _ ⟨"c", _⟩ []
    ⟨"etcd", "localhost:2379", "cni/", []⟩
    (.obj [("storeBackend", .str "etcd"), ("uri", .str "localhost:2379"),
           ("basePath", .str "cni")])
    ⟨"etcd", "localhost:2379", "cni", []⟩
    rfl rfl rfl rfl

end LibKv

namespace LibKv

/-- Claim C9 evaluated on the code: the connection timeout passed to the
store is the hardcoded 10 seconds for every loaded configuration, including
the documented one that supplies a connectionTimeout option in the
backend-specific storeConfig map — the supplied option is never applied. -/
theorem connection_timeout_always_ten :
    newStoreConfig ⟨"etcd", "localhost:2379", "cni/",
      [("connectionTimeout", "30")]⟩ = ⟨10⟩ ∧
    ∀ config : LibKvConf, newStoreConfig config = ⟨10⟩ :=
  ⟨rfl, fun _ => rfl⟩

/-- Claim C10: loading the startup configuration fails exactly when the
payload is not well-formed JSON for the configuration shape; a well-formed
payload with absent fields — in particular an absent backend identifier,
endpoint and base path — still yields a configuration, with the base path
normalized to "/", and an unregistered backend passes loading and is only
caught at store creation, before any store access. -/
theorem load_time_validation_absent :
    (∀ tag, loadPluginConfig (.malformed tag) = .error .configError) ∧
    (∀ b, loadSucceeds b = bytesDecode b) ∧
    loadPluginConfig (.json (.obj [])) = .ok ⟨"", "", "/", []⟩ ∧
    loadPluginConfig (.json (.obj [("storeBackend", .str "bogus")])) =
      .ok ⟨"bogus", "", "/", []⟩ ∧
    (∀ (store : String → Option Bytes)
        (delegate : String → Bytes → Except String Nat) (containerID : String)
        (fs : ScratchFS),
      cmdAdd store delegate
        ⟨containerID, .json (.obj [("storeBackend", .str "bogus")])⟩ fs =
        (.fatal, [], fs)) := by
  refine ⟨fun tag => rfl, ?_, rfl, rfl, fun store delegate containerID fs => rfl⟩
  intro b
  cases b with
  | malformed tag => rfl
  | json v =>
    cases hd : decodeLibKvConf v with
    | none => simp [loadSucceeds, loadPluginConfig, bytesDecode, hd]
    | some c0 => simp [loadSucceeds, loadPluginConfig, bytesDecode, hd]

end LibKv
